import Mathlib

/-!
Verification development for the deployment state and versioning engine of
the expo-shipkit repository: the Version Engine (`src/core/version/manager.ts`),
the Deployment Ledger (`DeploymentTracker`, `src/core/deployment/tracker.ts`)
and the Config Drift Detector (`src/core/deployment/config-detector.ts`).

The TypeScript code is shallowly embedded: JavaScript objects become
structures or association lists (preserving insertion order, as JS objects
do for string keys), nullable / optional values become `Option`, JavaScript
`Number(...)` applied to version components is modelled on the digit-string
fragment (with `none` standing for `NaN`), and the two file manifests of the
Version Engine become an explicit state record.
-/

namespace Shipkit

/-! ## Basic data model (`src/types/deployment.ts`, `src/types/eas.ts`) -/

/-- The two store platforms (`type Platform = 'ios' | 'android'`). -/
inductive Platform where
  | ios
  | android
deriving DecidableEq, Repr

/-- Deployment profiles (`type Profile = 'development' | 'preview' | 'staging' | 'production'`). -/
inductive Profile where
  | development
  | preview
  | staging
  | production
deriving DecidableEq, Repr

/-- Version bump kinds (`type VersionBumpType = 'patch' | 'minor' | 'major' | 'none'`). -/
inductive VersionBumpType where
  | patch
  | minor
  | major
  | none
deriving DecidableEq, Repr

/-- JSON values, used for the build-configuration maps (`unknown` in the
source): primitives, arrays and objects.  JavaScript strict (in)equality
`!==` is structural on primitives but is *reference* (in)equality on arrays
and objects; see `jsStrictEqAcross` for how the drift detector's comparison
between values of two distinct `JSON.parse` evaluations is embedded. -/
inductive CVal where
  | vNull
  | vBool (b : Bool)
  | vNum (n : Int)
  | vStr (s : String)
  | vArr (elems : List CVal)
  | vObj (fields : List (String × CVal))

/-- JavaScript `===` between two values that originate from *different*
`JSON.parse` evaluations (as in `detectConfigChanges`, which always compares
a freshly parsed current configuration against a snapshot built from an
earlier, separate parse): primitives compare by value; array and object
values live at distinct references, so they are never strictly equal. -/
def jsStrictEqAcross : CVal → CVal → Bool
  | CVal.vNull, CVal.vNull => true
  | CVal.vBool a, CVal.vBool b => a == b
  | CVal.vNum a, CVal.vNum b => a == b
  | CVal.vStr a, CVal.vStr b => a == b
  | _, _ => false

/-- JavaScript `current !== last` where either side may be `undefined`
(`none`) and the present values come from different parses:
`undefined !== undefined` is false, `undefined` differs from every value,
and present values compare with `jsStrictEqAcross`. -/
def jsNeqOptAcross : Option CVal → Option CVal → Bool
  | Option.none, Option.none => false
  | some v, some w => !(jsStrictEqAcross v w)
  | _, _ => true

/-- Whether a JSON value is a primitive (not an array or object) — the
values on which strict equality is structural rather than by reference. -/
def isPrimitiveVal : CVal → Bool
  | CVal.vArr _ => false
  | CVal.vObj _ => false
  | _ => true

/-- A JavaScript object used as a plain string-keyed map
(`Record<string, unknown>`), as an association list in insertion order. -/
abbrev ConfigMap := List (String × CVal)

/-- Property read `m[k]`: the value at the first (unique) occurrence of the
key, `undefined` (`none`) when absent. -/
def ConfigMap.get (m : ConfigMap) (k : String) : Option CVal :=
  (List.find? (fun e => e.1 == k) m).map (·.2)

/-! ## JavaScript string and number primitives

The version code relies on `String.prototype.split('.')` and `Number(...)`.
`splitCh` is `split('.')` on the character list of a string; `jsToNumC`
models `Number` on the digit-string fragment: `Number("")` is `0`,
`Number(digits)` is the decimal value, and `none` stands for `NaN` on every
other string (the engine only ever feeds version components to it). -/

/-- `split('.')` on a character list: `"" ↦ [""]`, `"a.b" ↦ ["a","b"]`,
`"a." ↦ ["a",""]` — exactly JavaScript's behaviour for a one-character
separator. -/
def splitCh : List Char → List (List Char)
  | [] => [[]]
  | c :: cs =>
    if c = '.' then [] :: splitCh cs
    else
      match splitCh cs with
      | [] => [[c]]
      | h :: t => (c :: h) :: t

/-- JavaScript `Number(s)` on the digit fragment; `none` models `NaN`. -/
def jsToNumC (l : List Char) : Option Nat :=
  if l.all (fun c => c.isDigit) then
    some (l.foldl (fun n c => n * 10 + (c.toNat - 48)) 0)
  else
    none

/-- `arr[i] ?? 0` over a parsed component array: out-of-range indices give
`some 0` (JS `undefined ?? 0`), in-range entries are kept as they are
(in particular `NaN`, i.e. `none`, survives `?? 0`). -/
def partAt : List (Option Nat) → Nat → Option Nat
  | [], _ => some 0
  | x :: _, 0 => x
  | _ :: xs, n + 1 => partAt xs n

/-- `version.split('.').map(Number)`. -/
def jsParts (s : String) : List (Option Nat) :=
  (splitCh s.data).map jsToNumC

/-- JavaScript `<` between two numbers that may be `NaN`: any comparison
involving `NaN` is false. -/
def jsLtNum : Option Nat → Option Nat → Bool
  | some a, some b => a < b
  | _, _ => false

/-- JavaScript `!==` between two numbers that may be `NaN`: `NaN` is unequal
to everything, itself included. -/
def jsNeqNum : Option Nat → Option Nat → Bool
  | some a, some b => a != b
  | _, _ => true

/-- Subtraction `b - a` of two possibly-`NaN` numbers as a comparator
result.  A `NaN` result makes `Array.prototype.sort` treat the pair as
equal, exactly as a `0` result does, so `0` is the observationally faithful
value for it. -/
def jsSubNum : Option Nat → Option Nat → Int
  | some b, some a => (b : Int) - (a : Int)
  | _, _ => 0

/-- Decimal digit character (used to model JS number-to-string conversion). -/
def digitChar : Nat → Char
  | 0 => '0'
  | 1 => '1'
  | 2 => '2'
  | 3 => '3'
  | 4 => '4'
  | 5 => '5'
  | 6 => '6'
  | 7 => '7'
  | 8 => '8'
  | 9 => '9'
  | _ => '?'

/-- Decimal digits of `n`, least significant first. -/
def natDigitsRev (n : Nat) : List Nat :=
  if h : n < 10 then [n]
  else n % 10 :: natDigitsRev (n / 10)
decreasing_by
  exact Nat.div_lt_self (by omega) (by omega)

/-- Decimal string of a natural number, modelling JavaScript's conversion of
a non-negative integer to a string (as in `` `${major + 1}.0.0` ``). -/
def natToStr (n : Nat) : String :=
  ⟨((natDigitsRev n).reverse).map digitChar⟩

/-- String conversion of a possibly-`NaN` JS number: `` `${NaN}` `` is `"NaN"`. -/
def jsNumStr : Option Nat → String
  | some n => natToStr n
  | none => "NaN"

/-- Adding a constant to a possibly-`NaN` JS number (`NaN + 1` is `NaN`). -/
def jsAddNum (x : Option Nat) (k : Nat) : Option Nat :=
  x.map (· + k)

/-- JavaScript truthiness of a nullable / optional string: `null`,
`undefined` and `""` are falsy, every other string is truthy. -/
def truthy : Option String → Bool
  | Option.none => false
  | some s => s != ""

/-! ## Deployment Ledger data model (`src/core/deployment/tracker.ts`) -/

/-- `interface ProfileDeploymentStatus`: per-profile deployment timestamp,
`none` covering both `null` and an absent optional field. -/
structure ProfileDeploymentStatus where
  development : Option String
  preview : Option String
  staging : Option String
  production : Option String
deriving DecidableEq, Repr

/-- Property read `status[profile]`. -/
def ProfileDeploymentStatus.get (ps : ProfileDeploymentStatus) : Profile → Option String
  | Profile.development => ps.development
  | Profile.preview => ps.preview
  | Profile.staging => ps.staging
  | Profile.production => ps.production

/-- Property write `status[profile] = v`. -/
def ProfileDeploymentStatus.set (ps : ProfileDeploymentStatus) :
    Profile → Option String → ProfileDeploymentStatus
  | Profile.development, v => { ps with development := v }
  | Profile.preview, v => { ps with preview := v }
  | Profile.staging, v => { ps with staging := v }
  | Profile.production, v => { ps with production := v }

/-- `interface DeploymentRecord`: per-platform profile statuses for one version. -/
structure DeploymentRecord where
  ios : ProfileDeploymentStatus
  android : ProfileDeploymentStatus
deriving DecidableEq, Repr

/-- Property read `record[platform]`. -/
def DeploymentRecord.get (r : DeploymentRecord) : Platform → ProfileDeploymentStatus
  | Platform.ios => r.ios
  | Platform.android => r.android

/-- Property write `record[platform] = ps`. -/
def DeploymentRecord.set (r : DeploymentRecord) :
    Platform → ProfileDeploymentStatus → DeploymentRecord
  | Platform.ios, ps => { r with ios := ps }
  | Platform.android, ps => { r with android := ps }

/-- `createEmptyDeploymentRecord()`: every profile of both platforms `null`/absent. -/
def createEmptyDeploymentRecord : DeploymentRecord :=
  { ios := ⟨none, none, none, none⟩, android := ⟨none, none, none, none⟩ }

/-- `interface DeploymentHistory`: the persisted root document.  The
`versions` object is an association list in insertion order (JS object key
order for non-index string keys); `lastConfig` has one snapshot per platform. -/
structure DeploymentHistory where
  versions : List (String × DeploymentRecord)
  lastConfigIos : ConfigMap
  lastConfigAndroid : ConfigMap

/-- Property read `data.lastConfig[platform]`. -/
def DeploymentHistory.lastConfig (h : DeploymentHistory) : Platform → ConfigMap
  | Platform.ios => h.lastConfigIos
  | Platform.android => h.lastConfigAndroid

/-- `createEmptyDeploymentHistory()`. -/
def createEmptyDeploymentHistory : DeploymentHistory :=
  { versions := [], lastConfigIos := [], lastConfigAndroid := [] }

/-- Object read `versions[version]` on the versions map. -/
def lookupVersion (vs : List (String × DeploymentRecord)) (v : String) :
    Option DeploymentRecord :=
  (List.find? (fun e => e.1 == v) vs).map (·.2)

/-- Object write `versions[version] = r`: replaces the value in place when
the key exists, otherwise appends the new key at the end (JS object
insertion-order semantics). -/
def setVersionRec : List (String × DeploymentRecord) → String → DeploymentRecord →
    List (String × DeploymentRecord)
  | [], v, r => [(v, r)]
  | (k, r0) :: rest, v, r =>
    if k = v then (k, r) :: rest
    else (k, r0) :: setVersionRec rest v r

/-! ### Tracker operations

The tracker's `save()` persists `this.data` to disk; the embedding models
the in-memory `this.data` state, with mutators returning the new state and
queries being read-only functions of it (none of the query methods assigns
to `this.data`, so they cannot add or remove version keys). -/

/-- `DeploymentTracker.initialize()`: reset to the empty history.  (Named
`initTracker` in the embedding.) -/
def initTracker (_h : DeploymentHistory) : DeploymentHistory :=
  createEmptyDeploymentHistory

/-- `DeploymentTracker.getVersionStatus(version)`. -/
def getVersionStatus (h : DeploymentHistory) (version : String) : DeploymentRecord :=
  (lookupVersion h.versions version).getD createEmptyDeploymentRecord

/-- `DeploymentTracker.updateStatus(version, platform, profile)`; the
`new Date().toISOString()` timestamp is passed in as `now`. -/
def updateStatus (h : DeploymentHistory) (version : String) (platform : Platform)
    (profile : Profile) (now : String) : DeploymentHistory :=
  let rec0 := (lookupVersion h.versions version).getD createEmptyDeploymentRecord
  let rec1 := rec0.set platform ((rec0.get platform).set profile (some now))
  { h with versions := setVersionRec h.versions version rec1 }

/-- `DeploymentTracker.getLastConfig(platform)` (the `?? {}` fallback is the
identity here: the typed document always carries both snapshot fields). -/
def getLastConfig (h : DeploymentHistory) (platform : Platform) : ConfigMap :=
  h.lastConfig platform

/-- `DeploymentTracker.updateLastConfig(platform, config)`. -/
def updateLastConfig (h : DeploymentHistory) (platform : Platform)
    (config : ConfigMap) : DeploymentHistory :=
  match platform with
  | Platform.ios => { h with lastConfigIos := config }
  | Platform.android => { h with lastConfigAndroid := config }

/-- The comparator of `getAllVersions`: parse both keys with
`split('.').map(Number)` and at the first of the three leading components
where they differ (under JS `!==`) return `bVal - aVal`; `0` after the loop. -/
def trackerCompare (a b : String) : Int :=
  let ap := jsParts a
  let bp := jsParts b
  if jsNeqNum (partAt ap 0) (partAt bp 0) then jsSubNum (partAt bp 0) (partAt ap 0)
  else if jsNeqNum (partAt ap 1) (partAt bp 1) then jsSubNum (partAt bp 1) (partAt ap 1)
  else if jsNeqNum (partAt ap 2) (partAt bp 2) then jsSubNum (partAt bp 2) (partAt ap 2)
  else 0

/-- Stable insertion step for `Array.prototype.sort` with comparator `cmp`:
an element is placed before the first element it does not have to follow. -/
def sortInsert (le : α → α → Bool) (x : α) : List α → List α
  | [] => [x]
  | y :: ys => if le x y then x :: y :: ys else y :: sortInsert le x ys

/-- `Array.prototype.sort(cmp)` as a stable sort with respect to
`le a b := cmp a b ≤ 0`; on every consistent comparator (which
`trackerCompare` is on numeric version keys) this is the behaviour the
ECMAScript specification guarantees. -/
def jsStableSort (le : α → α → Bool) : List α → List α
  | [] => []
  | x :: xs => sortInsert le x (jsStableSort le xs)

/-- `DeploymentTracker.getAllVersions()`: `Object.keys(versions)` (insertion
order) sorted with `trackerCompare`. -/
def getAllVersions (h : DeploymentHistory) : List String :=
  jsStableSort (fun a b => trackerCompare a b ≤ 0) (h.versions.map (·.1))

/-- Display name of a platform, as interpolated into warning messages. -/
def platformName : Platform → String
  | Platform.ios => "ios"
  | Platform.android => "android"

/-- Display name of a profile, as interpolated into warning messages. -/
def profileName : Profile → String
  | Profile.development => "development"
  | Profile.preview => "preview"
  | Profile.staging => "staging"
  | Profile.production => "production"

/-- `formatDate(isoString)`: `null ↦ "Not deployed"`; for a present
timestamp the source renders `new Date(iso).toLocaleString()`, a
locale-dependent display string modelled here by the raw ISO string (the
warning logic never inspects it). -/
def formatDate : Option String → String
  | Option.none => "Not deployed"
  | some s => s

/-- `interface SyncWarning`. -/
structure SyncWarning where
  message : String
  platform : Platform
  profile : Profile
deriving DecidableEq, Repr

/-- The sibling of a platform (`platform === 'ios' ? 'android' : 'ios'`). -/
def otherPlatform : Platform → Platform
  | Platform.ios => Platform.android
  | Platform.android => Platform.ios

/-- `DeploymentTracker.checkSyncWarnings(version, platform, profile)`: first
the sibling-deployed-but-not-this warning (guard
`otherDeployedAt && !thisDeployedAt`), then the already-deployed warning
(guard `thisDeployedAt`), both guards by JS truthiness. -/
def checkSyncWarnings (h : DeploymentHistory) (version : String)
    (platform : Platform) (profile : Profile) : List SyncWarning :=
  let status := getVersionStatus h version
  let other := otherPlatform platform
  let otherDeployedAt := (status.get other).get profile
  let thisDeployedAt := (status.get platform).get profile
  (if truthy otherDeployedAt && !truthy thisDeployedAt then
    [{ message := platformName other ++ " " ++ profileName profile ++
        " was deployed on " ++ formatDate otherDeployedAt,
       platform := other, profile := profile }]
  else []) ++
  (if truthy thisDeployedAt then
    [{ message := platformName platform ++ " " ++ profileName profile ++
        " already deployed on " ++ formatDate thisDeployedAt,
       platform := platform, profile := profile }]
  else [])

/-- `DeploymentTracker.getMissingPlatforms(version, profile)`: `ios` is
missing when `!status.ios[profile] && status.android[profile]`, then
symmetrically for `android`, by JS truthiness. -/
def getMissingPlatforms (h : DeploymentHistory) (version : String)
    (profile : Profile) : List Platform :=
  let status := getVersionStatus h version
  (if !truthy (status.ios.get profile) && truthy (status.android.get profile) then
    [Platform.ios]
  else []) ++
  (if !truthy (status.android.get profile) && truthy (status.ios.get profile) then
    [Platform.android]
  else [])

/-! ### Loading (`DeploymentTracker.load`, `src/utils/fs.ts` `readJsonFile`)

The state of the backing `.deployments.json` document on disk at
construction time: absent, present but not parseable as JSON, or present
and parsed into a history document. -/

/-- Disk state of the backing deployments document. -/
inductive DiskFile where
  | missing
  | unparsable
  | parsed (h : DeploymentHistory)

/-- `fileExists` of `src/utils/fs.ts`. -/
def fileExists : DiskFile → Bool
  | DiskFile.missing => false
  | _ => true

/-- `readJsonFile`: `null` (`none`) when the file is absent or any read /
parse error is thrown, otherwise the parsed document. -/
def readJsonFile : DiskFile → Option DeploymentHistory
  | DiskFile.parsed h => some h
  | _ => none

/-- `DeploymentTracker.load()`: empty history when the file does not exist,
otherwise `readJsonFile(...) ?? createEmptyDeploymentHistory()`; run by the
constructor, which therefore never fails. -/
def loadTracker (f : DiskFile) : DeploymentHistory :=
  if !fileExists f then createEmptyDeploymentHistory
  else (readJsonFile f).getD createEmptyDeploymentHistory

/-! ## Project configuration (`app.json`, `src/types/eas.ts`) -/

/-- `ExpoBuildPropertiesConfig`: the second element of the
`expo-build-properties` plugin entry, with an optional per-platform map of
build settings (read with arbitrary string keys at runtime). -/
structure ExpoBuildPropertiesConfig where
  android : Option ConfigMap
  ios : Option ConfigMap

/-- One entry of `expo.plugins`: either a bare plugin-name string or a
`[name, config]` array (whose second element may be absent or `null` in the
raw JSON, which the detector guards against with `!buildPropsPlugin[1]`). -/
inductive PluginEntry where
  | str (name : String)
  | arr (name : String) (cfg : Option ExpoBuildPropertiesConfig)

/-- The `expo` object of `app.json` (the fields this core reads). -/
structure ExpoConfig where
  version : String
  plugins : Option (List PluginEntry)

/-- `interface ExpoAppJson`. -/
structure ExpoAppJson where
  expo : ExpoConfig

/-- `package.json` as read and written by the Version Engine. -/
structure PackageJson where
  version : String
deriving DecidableEq, Repr

/-! ## Config Drift Detector (`src/core/deployment/config-detector.ts`) -/

/-- `DEFAULT_CRITICAL_CONFIG`. -/
def defaultCriticalConfig : Platform → List String
  | Platform.android => ["minSdkVersion", "targetSdkVersion", "compileSdkVersion"]
  | Platform.ios => ["deploymentTarget"]

/-- `interface ConfigChange`. -/
structure ConfigChange where
  key : String
  from_ : CVal
  to_ : CVal

/-- The `from`/`to` normalization of `detectConfigChanges`:
`v !== undefined ? v : 'unset'`. -/
def orUnset : Option CVal → CVal
  | some v => v
  | Option.none => CVal.vStr "unset"

/-- `readCurrentPlatformConfig(platform, projectRoot, criticalKeys)`: from
the parsed `app.json` (or `{}` when it is absent), find the first
`expo-build-properties` plugin array entry, take its per-platform section
(`?? {}`), and keep, in `criticalKeys` order, exactly the keys whose value
is not `undefined`. -/
def readCurrentPlatformConfig (appJson : Option ExpoAppJson) (platform : Platform)
    (criticalKeys : Option (List String)) : ConfigMap :=
  match appJson with
  | Option.none => []
  | some aj =>
    let plugins := aj.expo.plugins.getD []
    let found := plugins.find? (fun p =>
      match p with
      | PluginEntry.arr name _ => name == "expo-build-properties"
      | PluginEntry.str _ => false)
    match found with
    | some (PluginEntry.arr _ (some cfg)) =>
      let platformConfig :=
        (match platform with
         | Platform.android => cfg.android
         | Platform.ios => cfg.ios).getD []
      let keys := criticalKeys.getD (defaultCriticalConfig platform)
      keys.foldl (fun acc k =>
        match platformConfig.get k with
        | some v => acc ++ [(k, v)]
        | Option.none => acc) []
    | _ => []

/-- `detectConfigChanges(platform, tracker, projectRoot, criticalKeys)`: for
each critical key compare the freshly read current value against the
tracker's stored snapshot value with strict `!==` (both sides possibly
`undefined`; the current map comes from a fresh `JSON.parse`, the snapshot
from an earlier, separate parse, so `jsNeqOptAcross` is the faithful
embedding of `!==` here), and report a `ConfigChange` with absent sides
rendered as `'unset'`. -/
def detectConfigChanges (platform : Platform) (appJson : Option ExpoAppJson)
    (h : DeploymentHistory) (criticalKeys : Option (List String)) : List ConfigChange :=
  let currentConfig := readCurrentPlatformConfig appJson platform criticalKeys
  let lastConfig := getLastConfig h platform
  let keys := criticalKeys.getD (defaultCriticalConfig platform)
  keys.foldl (fun acc k =>
    if jsNeqOptAcross (currentConfig.get k) (lastConfig.get k) then
      acc ++ [{ key := k, from_ := orUnset (lastConfig.get k),
                to_ := orUnset (currentConfig.get k) }]
    else acc) []

/-- `hasConfigChanged(...)`: `detectConfigChanges(...).length > 0`. -/
def hasConfigChanged (platform : Platform) (appJson : Option ExpoAppJson)
    (h : DeploymentHistory) (criticalKeys : Option (List String)) : Bool :=
  (detectConfigChanges platform appJson h criticalKeys).length > 0

/-- `updateTrackedConfig(platform, tracker, projectRoot, criticalKeys)`:
store the freshly read current config as the platform's snapshot. -/
def updateTrackedConfig (platform : Platform) (appJson : Option ExpoAppJson)
    (h : DeploymentHistory) (criticalKeys : Option (List String)) : DeploymentHistory :=
  updateLastConfig h platform (readCurrentPlatformConfig appJson platform criticalKeys)

/-! ## Version Engine (`src/core/version/manager.ts`) -/

/-- The two manifests a `VersionManager` reads and writes; `none` models a
missing or unreadable document (`readJsonFile` returning `null`). -/
structure VMState where
  appJson : Option ExpoAppJson
  packageJson : Option PackageJson

/-- `VersionManager.getCurrentVersion()`:
`readJsonFile(appJsonPath)?.expo?.version ?? '0.0.0'`. -/
def getCurrentVersion (s : VMState) : String :=
  (s.appJson.map (fun aj => aj.expo.version)).getD "0.0.0"

/-- `VersionManager.parseVersion(version)`:
`version.split('.').map(Number)` padded with `?? 0` to three entries
(a `NaN` entry survives the `?? 0`). -/
def parseVersion (version : String) : Option Nat × Option Nat × Option Nat :=
  let parts := jsParts version
  (partAt parts 0, partAt parts 1, partAt parts 2)

/-- `VersionManager.calculateNewVersion(currentVersion, type)`. -/
def calculateNewVersion (currentVersion : String) (t : VersionBumpType) : String :=
  match t with
  | VersionBumpType.none => currentVersion
  | _ =>
    let (major, minor, patch) := parseVersion currentVersion
    match t with
    | VersionBumpType.major => jsNumStr (jsAddNum major 1) ++ ".0.0"
    | VersionBumpType.minor => jsNumStr major ++ "." ++ jsNumStr (jsAddNum minor 1) ++ ".0"
    | VersionBumpType.patch =>
      jsNumStr major ++ "." ++ jsNumStr minor ++ "." ++ jsNumStr (jsAddNum patch 1)
    | VersionBumpType.none => currentVersion

/-- `{ oldVersion, newVersion }` returned by `bump`. -/
structure VersionBumpResult where
  oldVersion : String
  newVersion : String
deriving DecidableEq, Repr

/-- Write `newVersion` into both manifests, silently skipping a manifest
whose document is unreadable (`if (appJson) { ... }`). -/
def writeBothManifests (s : VMState) (newVersion : String) : VMState :=
  { appJson := s.appJson.map (fun aj => { aj with expo := { aj.expo with version := newVersion } }),
    packageJson := s.packageJson.map (fun _ => { version := newVersion }) }

/-- `VersionManager.bump(type)`: read the current version; `none` returns it
unchanged without touching either manifest; otherwise compute the new
version and write it to both readable manifests. -/
def bump (s : VMState) (t : VersionBumpType) : VersionBumpResult × VMState :=
  let oldVersion := getCurrentVersion s
  match t with
  | VersionBumpType.none => ({ oldVersion := oldVersion, newVersion := oldVersion }, s)
  | _ =>
    let newVersion := calculateNewVersion oldVersion t
    ({ oldVersion := oldVersion, newVersion := newVersion },
     writeBothManifests s newVersion)

/-- The regex `/^\d+\.\d+\.\d+$/` of `setVersion`: exactly three
dot-separated non-empty digit runs. -/
def isDigitRun (l : List Char) : Bool :=
  !l.isEmpty && l.all (fun c => c.isDigit)

/-- `^\d+\.\d+\.\d+$`.test(version)`. -/
def validVersionFormat (version : String) : Bool :=
  match splitCh version.data with
  | [a, b, c] => isDigitRun a && isDigitRun b && isDigitRun c
  | _ => false

/-- `VersionManager.setVersion(version)`: throw the invalid-format error
when the regex rejects, otherwise write the version to both readable
manifests and return it. -/
def setVersion (s : VMState) (version : String) : Except String (String × VMState) :=
  if !validVersionFormat version then
    Except.error ("Invalid version format: " ++ version ++ ". Expected format: x.y.z")
  else
    Except.ok (version, writeBothManifests s version)

/-- `compareVersions(a, b)` (module-level function of `manager.ts`): walk
the first three parsed components; `-1`/`1` at the first strict `<`/`>`
(JS `<`,`>`: false on `NaN`), `0` after the loop. -/
def compareVersions (a b : String) : Int :=
  let ap := jsParts a
  let bp := jsParts b
  let cmpAt := fun i =>
    if jsLtNum (partAt ap i) (partAt bp i) then (-1 : Int)
    else if jsLtNum (partAt bp i) (partAt ap i) then 1
    else 0
  if cmpAt 0 ≠ 0 then cmpAt 0
  else if cmpAt 1 ≠ 0 then cmpAt 1
  else if cmpAt 2 ≠ 0 then cmpAt 2
  else 0

/-- `isNewerVersion(a, b)`: `compareVersions(a, b) > 0`. -/
def isNewerVersion (a b : String) : Bool :=
  compareVersions a b > 0

/-- The version string `` `${a}.${b}.${c}` `` built from three non-negative
integers. -/
def mkVersion (a b c : Nat) : String :=
  natToStr a ++ "." ++ natToStr b ++ "." ++ natToStr c

/-! ## Reachable ledger states and the version-key invariant -/

/-- In-memory ledger states reachable from the empty history (as established
by `initialize` and by the empty-history fallback of `load`) through the
tracker's mutating operations.  The query methods (`getVersionStatus`,
`getMissingPlatforms`, `checkSyncWarnings`, `getAllVersions`,
`getLastConfig`) never assign to the state and are embedded as read-only
functions, so they are not steps. -/
inductive ReachableHistory : DeploymentHistory → Prop where
  | empty : ReachableHistory createEmptyDeploymentHistory
  | update (h : DeploymentHistory) (v : String) (p : Platform) (pf : Profile)
      (ts : String) : ReachableHistory h → ReachableHistory (updateStatus h v p pf ts)
  | config (h : DeploymentHistory) (p : Platform) (cfg : ConfigMap) :
      ReachableHistory h → ReachableHistory (updateLastConfig h p cfg)

/-- At least one `(platform, profile)` timestamp is recorded in the record. -/
def recordHasTimestamp (r : DeploymentRecord) : Prop :=
  ∃ (p : Platform) (pf : Profile), ((r.get p).get pf).isSome = true

/-- The ledger invariant: every version key present in the versions map
carries at least one recorded `(platform, profile)` timestamp.  (The other
direction of the spec's "iff" is structural: a timestamp can only be
recorded inside the record stored under its version key.) -/
def LedgerInvariant (h : DeploymentHistory) : Prop :=
  ∀ e ∈ h.versions, recordHasTimestamp e.2

/-! ## Spec-side orders and shapes (for refinement statements) -/

/-- The `(major, minor, patch)` key of a version string, components parsed
numerically and missing components treated as `0`. -/
def versionKey3 (s : String) : Nat × Nat × Nat :=
  ((partAt (jsParts s) 0).getD 0, (partAt (jsParts s) 1).getD 0,
   (partAt (jsParts s) 2).getD 0)

/-- Descending component-wise numeric comparison on `(major, minor, patch)`
triples, ties broken by the earlier component — the order the spec states
for `listVersions`. -/
def lexGe3 (x y : Nat × Nat × Nat) : Prop :=
  y.1 < x.1 ∨ (x.1 = y.1 ∧ (y.2.1 < x.2.1 ∨ (x.2.1 = y.2.1 ∧ y.2.2 ≤ x.2.2)))

/-- `a` precedes (or ties with) `b` in the spec's descending version order. -/
def specVersionDesc (a b : String) : Prop :=
  lexGe3 (versionKey3 a) (versionKey3 b)

/-- A version string all of whose dot-separated components are digit strings
(possibly empty, matching JS `Number("") = 0`) — the fragment on which the
`getAllVersions` comparator is a consistent numeric comparison; outside it,
JS `Number` yields `NaN` and the spec's "numeric comparison" is undefined. -/
def NumericKey (s : String) : Prop :=
  ∀ part ∈ splitCh s.data, part.all (fun c => c.isDigit) = true

instance (s : String) : Decidable (NumericKey s) :=
  inferInstanceAs
    (Decidable (∀ part ∈ splitCh s.data, part.all (fun c => c.isDigit) = true))

/-- The tracker comparator expressed on parsed `(major, minor, patch)`
triples. -/
def cmp3 (x y : Nat × Nat × Nat) : Int :=
  if x.1 ≠ y.1 then (y.1 : Int) - (x.1 : Int)
  else if x.2.1 ≠ y.2.1 then (y.2.1 : Int) - (x.2.1 : Int)
  else if x.2.2 ≠ y.2.2 then (y.2.2 : Int) - (x.2.2 : Int)
  else 0

/-- The spec's shape for `setVersion` input: exactly three dot-separated
non-empty digit runs (non-negative integers), nothing before or after. -/
def SpecThreePartVersion (s : String) : Prop :=
  ∃ a b c : List Char,
    s.data = a ++ '.' :: (b ++ '.' :: c) ∧
    a ≠ [] ∧ a.all (fun ch => ch.isDigit) = true ∧
    b ≠ [] ∧ b.all (fun ch => ch.isDigit) = true ∧
    c ≠ [] ∧ c.all (fun ch => ch.isDigit) = true

/-- Whether an `Except` result is a success. -/
def exceptOk : Except String (String × VMState) → Bool
  | Except.ok _ => true
  | Except.error _ => false

/-- Concatenation of split parts with `'.'` separators re-inserted (the
inverse of `splitCh`). -/
def joinDots : List (List Char) → List Char
  | [] => []
  | [x] => x
  | x :: xs => x ++ '.' :: joinDots xs

/-- A ledger state tracking the given versions (in insertion order), each
with an empty record and empty config snapshots — for concrete examples. -/
def sampleVersions (l : List String) : DeploymentHistory :=
  { versions := l.map (fun v => (v, createEmptyDeploymentRecord)),
    lastConfigIos := [], lastConfigAndroid := [] }

/-- A parsed `app.json` whose `expo-build-properties` iOS section holds an
*object-valued* entry under the key `infoPlist` — a configuration on which
the freshly parsed current value and the stored snapshot value are distinct
references. -/
def objectValuedAppJson : Option ExpoAppJson :=
  some
    { expo :=
      { version := "1.0.0",
        plugins := some [PluginEntry.arr "expo-build-properties"
          (some { android := none,
                  ios := some [("infoPlist", CVal.vObj [])] })] } }

/-- A parsed `app.json` whose `expo-build-properties` iOS section holds the
primitive string `"15.1"` under `deploymentTarget`. -/
def primitiveValuedAppJson : Option ExpoAppJson :=
  some
    { expo :=
      { version := "1.0.0",
        plugins := some [PluginEntry.arr "expo-build-properties"
          (some { android := none,
                  ios := some [("deploymentTarget", CVal.vStr "15.1")] })] } }

/-! ## Helper lemmas -/

/-- The change-collecting fold of `detectConfigChanges` collects, in key
order, exactly the keys whose current and stored values differ under the
cross-parse strict inequality. -/
theorem detect_foldl_eq (cur last : ConfigMap) :
    ∀ (keys : List String) (acc : List ConfigChange),
      List.foldl (fun acc k =>
        if jsNeqOptAcross (cur.get k) (last.get k) then
          acc ++ [{ key := k, from_ := orUnset (last.get k), to_ := orUnset (cur.get k) }]
        else acc) acc keys =
      acc ++ (keys.filter (fun k => jsNeqOptAcross (cur.get k) (last.get k))).map
        (fun k => { key := k, from_ := orUnset (last.get k), to_ := orUnset (cur.get k) }) := by
  intro keys
  induction keys with
  | nil => intro acc; simp
  | cons k ks ih =>
    intro acc
    rw [List.foldl_cons, List.filter_cons]
    by_cases h : jsNeqOptAcross (cur.get k) (last.get k) = true
    · rw [if_pos h, ih]
      simp [h, List.append_assoc]
    · rw [if_neg h, ih]
      simp [h]

/-- Writing a platform's snapshot and reading it back gives the snapshot. -/
theorem getLastConfig_updateLastConfig (h : DeploymentHistory) (p : Platform)
    (cfg : ConfigMap) : getLastConfig (updateLastConfig h p cfg) p = cfg := by
  cases p <;> rfl

/-- `detectConfigChanges` in closed form: in `criticalKeys` order, one
`ConfigChange` per key whose current and stored values differ under strict
inequality, with absent sides rendered as `"unset"`. -/
theorem detectConfigChanges_eq (platform : Platform) (appJson : Option ExpoAppJson)
    (h : DeploymentHistory) (criticalKeys : Option (List String)) :
    detectConfigChanges platform appJson h criticalKeys =
      ((criticalKeys.getD (defaultCriticalConfig platform)).filter (fun k =>
        jsNeqOptAcross
          ((readCurrentPlatformConfig appJson platform criticalKeys).get k)
          ((getLastConfig h platform).get k))).map
        (fun k =>
          { key := k,
            from_ := orUnset ((getLastConfig h platform).get k),
            to_ := orUnset ((readCurrentPlatformConfig appJson platform criticalKeys).get k) }) := by
  simp only [detectConfigChanges]
  rw [detect_foldl_eq]
  simp

/-! ## Claims -/

/-- **C1 (counterexample).** The claim asserts some ledger state and
arguments make `checkSyncWarnings` return both the sibling-deployed warning
and the re-deployment warning at once.  This is impossible: the first guard
requires this platform's timestamp to be falsy and the second requires it to
be truthy, so the returned list never holds two warnings. -/
theorem c1_both_warnings_impossible :
    ¬ ∃ (h : DeploymentHistory) (version : String) (platform : Platform)
        (profile : Profile),
        2 ≤ (checkSyncWarnings h version platform profile).length := by
  rintro ⟨h, version, platform, profile, hlen⟩
  revert hlen
  simp only [checkSyncWarnings]
  cases truthy (((getVersionStatus h version).get (otherPlatform platform)).get profile) <;>
    cases truthy (((getVersionStatus h version).get platform).get profile) <;> simp

/-- **C1 (amended).** The two warnings of `checkSyncWarnings` are mutually
exclusive: every call returns at most one warning, and it returns exactly
one precisely when this platform's timestamp for `(version, profile)` is
truthy (re-deployment warning) or the sibling platform's is truthy while
this platform's is not (sibling warning) — i.e. when either platform's
timestamp is truthy. -/
theorem c1_sync_warnings_exclusive :
    ∀ (h : DeploymentHistory) (version : String) (platform : Platform)
      (profile : Profile),
      (checkSyncWarnings h version platform profile).length ≤ 1 ∧
      ((checkSyncWarnings h version platform profile).length = 1 ↔
        (truthy (((getVersionStatus h version).get (otherPlatform platform)).get profile) = true ∨
         truthy (((getVersionStatus h version).get platform).get profile) = true)) := by
  intro h version platform profile
  simp only [checkSyncWarnings]
  cases truthy (((getVersionStatus h version).get (otherPlatform platform)).get profile) <;>
    cases truthy (((getVersionStatus h version).get platform).get profile) <;> simp

/-- Cross-parse strict inequality is irreflexive exactly on the primitive
values: a primitive (or absent) value equals itself, while object and array
values from two parses are distinct references. -/
theorem jsNeqOptAcross_self (x : Option CVal)
    (hx : x.all isPrimitiveVal = true) : jsNeqOptAcross x x = false := by
  cases x with
  | none => rfl
  | some v =>
    cases v <;> simp [Option.all, isPrimitiveVal] at hx <;>
      simp [jsNeqOptAcross, jsStrictEqAcross]

/-- **C2 (counterexample).** The claim asserts the commit-then-detect
round-trip yields no changes for *every* project configuration and
critical-key list.  With an object-valued critical key (`infoPlist` holding
an object in the `expo-build-properties` iOS section) the freshly parsed
current value and the just-stored snapshot value are distinct references,
JS `!==` holds, and the round-trip reports that key as changed. -/
theorem c2_roundtrip_fails_on_object_values :
    ¬ (detectConfigChanges Platform.ios objectValuedAppJson
        (updateTrackedConfig Platform.ios objectValuedAppJson
          createEmptyDeploymentHistory (some ["infoPlist"]))
        (some ["infoPlist"]) = []) := by
  intro hempty
  have hlen : (detectConfigChanges Platform.ios objectValuedAppJson
      (updateTrackedConfig Platform.ios objectValuedAppJson
        createEmptyDeploymentHistory (some ["infoPlist"]))
      (some ["infoPlist"])).length = 1 := by decide
  rw [hempty] at hlen
  exact Nat.noConfusion hlen

/-- **C2 (amended).** Committing the current configuration snapshot
(`updateTrackedConfig`) and then detecting changes on the same tracker
state, with the project configuration and critical-key list unchanged
between the two calls, yields no changes — provided every critical key's
current value is a primitive JSON value or absent.  (An object- or
array-valued critical key is re-parsed to a fresh reference and is always
reported as changed, as the counterexample shows.) -/
theorem c2_commit_then_detect_empty (platform : Platform)
    (appJson : Option ExpoAppJson) (h : DeploymentHistory)
    (criticalKeys : Option (List String))
    (hprim : ∀ k ∈ criticalKeys.getD (defaultCriticalConfig platform),
      ((readCurrentPlatformConfig appJson platform criticalKeys).get k).all
        isPrimitiveVal = true) :
    detectConfigChanges platform appJson
      (updateTrackedConfig platform appJson h criticalKeys) criticalKeys = [] := by
  rw [detectConfigChanges_eq]
  unfold updateTrackedConfig
  rw [getLastConfig_updateLastConfig]
  have hfilter : ((criticalKeys.getD (defaultCriticalConfig platform)).filter (fun k =>
      jsNeqOptAcross
        ((readCurrentPlatformConfig appJson platform criticalKeys).get k)
        ((readCurrentPlatformConfig appJson platform criticalKeys).get k))) = [] := by
    rw [List.filter_eq_nil_iff]
    intro k hk
    rw [jsNeqOptAcross_self _ (hprim k hk)]
    exact Bool.false_ne_true
  rw [hfilter]
  rfl

/-- **C2 (witness).** The amended round-trip at a concrete configuration
whose single critical key `deploymentTarget` holds the primitive string
`"15.1"`. -/
theorem c2_witness :
    (∀ k ∈ (some ["deploymentTarget"] : Option (List String)).getD
        (defaultCriticalConfig Platform.ios),
      ((readCurrentPlatformConfig primitiveValuedAppJson
        Platform.ios (some ["deploymentTarget"])).get k).all
          isPrimitiveVal = true) ∧
    detectConfigChanges Platform.ios primitiveValuedAppJson
      (updateTrackedConfig Platform.ios primitiveValuedAppJson
        createEmptyDeploymentHistory (some ["deploymentTarget"]))
      (some ["deploymentTarget"]) = [] :=
  ⟨by decide, c2_commit_then_detect_empty Platform.ios primitiveValuedAppJson
    createEmptyDeploymentHistory (some ["deploymentTarget"]) (by decide)⟩

/-- **C4 (counterexample).** The claim says `getMissingPlatforms` returns a
platform exactly when the other platform has a non-null timestamp and it
does not.  The code tests JS truthiness instead, so an empty-string
timestamp (non-null, but falsy) for `ios preview` does not make `android`
missing, contradicting the claimed characterization. -/
theorem c4_nonnull_characterization_fails :
    ¬ (Platform.android ∈
        getMissingPlatforms
          { versions := [("1.0.0",
              { ios := ⟨none, some "", none, none⟩,
                android := ⟨none, none, none, none⟩ })],
            lastConfigIos := [], lastConfigAndroid := [] }
          "1.0.0" Profile.preview ↔
        (((getVersionStatus
            { versions := [("1.0.0",
                { ios := ⟨none, some "", none, none⟩,
                  android := ⟨none, none, none, none⟩ })],
              lastConfigIos := [], lastConfigAndroid := [] }
            "1.0.0").get (otherPlatform Platform.android)).get Profile.preview ≠
            Option.none ∧
          ((getVersionStatus
            { versions := [("1.0.0",
                { ios := ⟨none, some "", none, none⟩,
                  android := ⟨none, none, none, none⟩ })],
              lastConfigIos := [], lastConfigAndroid := [] }
            "1.0.0").get Platform.android).get Profile.preview = Option.none)) := by
  decide

/-- **C4 (amended).** For every ledger state, version and profile, a
platform `P` is in `getMissingPlatforms` exactly when the other platform's
timestamp for `(version, profile)` is truthy (non-null and non-empty) and
`P`'s own timestamp is not truthy; consequently the result is empty when
neither platform's timestamp is truthy, and a platform whose own timestamp
is truthy is never returned. -/
theorem c4_missing_platforms_truthy :
    ∀ (h : DeploymentHistory) (version : String) (profile : Profile)
      (p : Platform),
      p ∈ getMissingPlatforms h version profile ↔
        (truthy (((getVersionStatus h version).get (otherPlatform p)).get profile) = true ∧
         truthy (((getVersionStatus h version).get p).get profile) = false) := by
  intro h version profile p
  simp only [getMissingPlatforms]
  cases p <;>
    cases hios : truthy ((getVersionStatus h version).ios.get profile) <;>
      cases hand : truthy ((getVersionStatus h version).android.get profile) <;>
        simp [otherPlatform, DeploymentRecord.get, hios, hand]

/-- **C9.** If the backing deployments document is missing, or present but
unparsable as JSON, the tracker loads the empty `DeploymentHistory`
(no versions, an empty config snapshot per platform); `loadTracker` is a
total function, so construction never fails. -/
theorem c9_load_falls_back_to_empty :
    loadTracker DiskFile.missing = createEmptyDeploymentHistory ∧
    loadTracker DiskFile.unparsable = createEmptyDeploymentHistory ∧
    createEmptyDeploymentHistory.versions = [] ∧
    (∀ p : Platform, createEmptyDeploymentHistory.lastConfig p = []) := by
  refine ⟨rfl, rfl, rfl, ?_⟩
  intro p
  cases p <;> rfl

/-- **C5.** For every platform, ledger state (holding the stored snapshot),
project configuration and critical-key list, `detectConfigChanges` returns
one `ConfigChange` per critical key whose current and stored values differ
under strict inequality (absence compared as `undefined`, not as the
sentinel), with `from`/`to` the stored/current value or `"unset"` when the
corresponding side is absent, ordered by the critical-key list. -/
theorem c5_detect_changes_closed_form (platform : Platform)
    (appJson : Option ExpoAppJson) (h : DeploymentHistory) (ks : List String) :
    detectConfigChanges platform appJson h (some ks) =
      (ks.filter (fun k =>
        jsNeqOptAcross
          ((readCurrentPlatformConfig appJson platform (some ks)).get k)
          ((getLastConfig h platform).get k))).map
        (fun k =>
          { key := k,
            from_ := orUnset ((getLastConfig h platform).get k),
            to_ := orUnset ((readCurrentPlatformConfig appJson platform (some ks)).get k) }) := by
  rw [detectConfigChanges_eq]
  rfl

/-! ## Version-key invariant (C3) -/

/-- Updating a profile timestamp and reading the same profile back. -/
theorem profileStatus_get_set (ps : ProfileDeploymentStatus) (pf : Profile)
    (v : Option String) : (ps.set pf v).get pf = v := by
  cases pf <;> rfl

/-- Updating a platform's status and reading the same platform back. -/
theorem deploymentRecord_get_set (r : DeploymentRecord) (p : Platform)
    (ps : ProfileDeploymentStatus) : (r.set p ps).get p = ps := by
  cases p <;> rfl

/-- Every member of the versions map after an object write is either an old
member or the written binding. -/
theorem mem_setVersionRec (vs : List (String × DeploymentRecord)) (v : String)
    (r : DeploymentRecord) :
    ∀ e ∈ setVersionRec vs v r, e ∈ vs ∨ e = (v, r) := by
  induction vs with
  | nil => intro e he; simp [setVersionRec] at he; simp [he]
  | cons kv rest ih =>
    intro e he
    rw [setVersionRec] at he
    by_cases hk : kv.1 = v
    · rw [if_pos hk] at he
      rcases List.mem_cons.mp he with h | h
      · right; rw [h, hk]
      · left; exact List.mem_cons_of_mem _ h
    · rw [if_neg hk] at he
      rcases List.mem_cons.mp he with h | h
      · left; rw [h]; exact List.mem_cons_self _ _
      · rcases ih e h with h' | h'
        · left; exact List.mem_cons_of_mem _ h'
        · right; exact h'

/-- Reading back the version key just written. -/
theorem lookup_setVersionRec (vs : List (String × DeploymentRecord)) (v : String)
    (r : DeploymentRecord) : lookupVersion (setVersionRec vs v r) v = some r := by
  induction vs with
  | nil => simp [setVersionRec, lookupVersion, List.find?]
  | cons kv rest ih =>
    rw [setVersionRec]
    by_cases hk : kv.1 = v
    · rw [if_pos hk]
      simp [lookupVersion, List.find?, hk]
    · rw [if_neg hk]
      have hk' : (kv.1 == v) = false := beq_eq_false_iff_ne.mpr hk
      simpa [lookupVersion, List.find?, hk'] using ih

/-- `updateLastConfig` does not touch the versions map. -/
theorem versions_updateLastConfig (h : DeploymentHistory) (p : Platform)
    (cfg : ConfigMap) : (updateLastConfig h p cfg).versions = h.versions := by
  cases p <;> rfl

/-- **C3.** The ledger invariant — every tracked version key carries at
least one recorded `(platform, profile)` timestamp — holds in the empty
history established by `initialize` and the empty-history load fallback, and
is preserved by every mutating operation; moreover `updateStatus` creates
the version key together with its timestamp in the same step.  Queries are
embedded as read-only functions of the state, so they cannot add or remove
version keys. -/
theorem c3_version_key_invariant :
    (∀ h : DeploymentHistory, ReachableHistory h → LedgerInvariant h) ∧
    (∀ (h : DeploymentHistory) (v : String) (p : Platform) (pf : Profile)
      (ts : String),
      ∃ r, lookupVersion (updateStatus h v p pf ts).versions v = some r ∧
        (r.get p).get pf = some ts) := by
  constructor
  · intro h hr
    induction hr with
    | empty => intro e he; simp [createEmptyDeploymentHistory] at he
    | update h v p pf ts _ ih =>
      intro e he
      simp only [updateStatus] at he
      rcases mem_setVersionRec _ _ _ e he with hold | hnew
      · exact ih e hold
      · rw [hnew]
        refine ⟨p, pf, ?_⟩
        rw [deploymentRecord_get_set, profileStatus_get_set]
        rfl
    | config h p cfg _ ih =>
      intro e he
      rw [versions_updateLastConfig] at he
      exact ih e he
  · intro h v p pf ts
    refine ⟨((lookupVersion h.versions v).getD createEmptyDeploymentRecord).set p
      ((((lookupVersion h.versions v).getD createEmptyDeploymentRecord).get p).set pf
        (some ts)), ?_, ?_⟩
    · simp only [updateStatus]
      exact lookup_setVersionRec _ _ _
    · rw [deploymentRecord_get_set, profileStatus_get_set]

/-- **C3 (witness).** The invariant at a concrete reachable state, and the
key-with-timestamp property at a concrete update. -/
theorem c3_witness :
    LedgerInvariant (updateStatus createEmptyDeploymentHistory "1.0.0"
      Platform.ios Profile.preview "2024-01-01T00:00:00.000Z") ∧
    (∃ r, lookupVersion (updateStatus createEmptyDeploymentHistory "1.0.0"
        Platform.ios Profile.preview "2024-01-01T00:00:00.000Z").versions "1.0.0" =
          some r ∧
      (r.get Platform.ios).get Profile.preview = some "2024-01-01T00:00:00.000Z") :=
  ⟨c3_version_key_invariant.1 _
    (ReachableHistory.update _ _ _ _ _ ReachableHistory.empty),
   c3_version_key_invariant.2 createEmptyDeploymentHistory "1.0.0"
     Platform.ios Profile.preview "2024-01-01T00:00:00.000Z"⟩

/-! ## Components beyond the third (C10) -/

/-- JS `<` on a possibly-`NaN` number is irreflexive. -/
theorem jsLtNum_irrefl (x : Option Nat) : jsLtNum x x = false := by
  cases x <;> simp [jsLtNum]

/-- **C10.** For every pair of version strings whose first three
dot-separated components agree after numeric parsing (`undefined` padded to
`0`, `NaN` kept), `compareVersions` returns `0` and `isNewerVersion` is
`false`: components beyond the third never influence the comparison, even
though `setVersion` rejects such strings — e.g.
`compareVersions("1.0.0.9", "1.0.0") = 0`. -/
theorem c10_extra_components_ignored (a b : String)
    (h : ∀ i, i < 3 → partAt (jsParts a) i = partAt (jsParts b) i) :
    compareVersions a b = 0 ∧ isNewerVersion a b = false ∧
    compareVersions "1.0.0.9" "1.0.0" = 0 := by
  have h0 := h 0 (by omega)
  have h1 := h 1 (by omega)
  have h2 := h 2 (by omega)
  have hc : compareVersions a b = 0 := by
    simp only [compareVersions, h0, h1, h2, jsLtNum_irrefl]
    simp
  refine ⟨hc, ?_, by decide⟩
  simp [isNewerVersion, hc]

/-- **C10 (witness).** The hypothesis and conclusion at
`a = "1.0.0.9"`, `b = "1.0.0"`. -/
theorem c10_witness :
    (∀ i, i < 3 → partAt (jsParts "1.0.0.9") i = partAt (jsParts "1.0.0") i) ∧
    (compareVersions "1.0.0.9" "1.0.0" = 0 ∧
      isNewerVersion "1.0.0.9" "1.0.0" = false ∧
      compareVersions "1.0.0.9" "1.0.0" = 0) :=
  ⟨by decide, c10_extra_components_ignored "1.0.0.9" "1.0.0" (by decide)⟩

/-! ## Decimal strings round-trip through JS `Number` -/

/-- Digits of `digitChar` are decimal digit characters. -/
theorem digitChar_isDigit (d : Nat) (h : d < 10) : (digitChar d).isDigit = true := by
  interval_cases d <;> decide

/-- `digitChar` inverts to the digit value via the character code. -/
theorem digitChar_toNat (d : Nat) (h : d < 10) : (digitChar d).toNat = 48 + d := by
  interval_cases d <;> decide

/-- Digit characters are not the separator. -/
theorem digitChar_ne_dot (d : Nat) (h : d < 10) : digitChar d ≠ '.' := by
  interval_cases d <;> decide

/-- All entries of `natDigitsRev` are decimal digits. -/
theorem natDigitsRev_lt (n : Nat) : ∀ d ∈ natDigitsRev n, d < 10 := by
  induction n using Nat.strong_induction_on with
  | _ n ih =>
    unfold natDigitsRev
    split
    · intro d hd
      simp at hd
      omega
    · intro d hd
      rcases List.mem_cons.mp hd with h | h
      · omega
      · exact ih (n / 10) (Nat.div_lt_self (by omega) (by omega)) d h

/-- Folding the base-10 accumulator over `natDigitsRev` (most significant
digit last) recovers the number. -/
theorem foldr_natDigitsRev (n : Nat) :
    List.foldr (fun d acc => acc * 10 + d) 0 (natDigitsRev n) = n := by
  induction n using Nat.strong_induction_on with
  | _ n ih =>
    unfold natDigitsRev
    split
    · simp
    · rw [List.foldr_cons, ih (n / 10) (Nat.div_lt_self (by omega) (by omega))]
      omega

/-- The character-level accumulator of `jsToNumC` agrees with the digit-level
one on digit lists. -/
theorem foldl_digitChar (ds : List Nat) (hds : ∀ d ∈ ds, d < 10) :
    ∀ a : Nat,
      List.foldl (fun n c => n * 10 + (c.toNat - 48)) a (ds.map digitChar) =
        List.foldl (fun n d => n * 10 + d) a ds := by
  induction ds with
  | nil => intro a; rfl
  | cons d ds ih =>
    intro a
    rw [List.map_cons, List.foldl_cons, List.foldl_cons,
      digitChar_toNat d (hds d (List.mem_cons_self _ _))]
    have : 48 + d - 48 = d := by omega
    rw [this]
    exact ih (fun d hd => hds d (List.mem_cons_of_mem _ hd)) _

/-- The decimal string of `n` consists of digit characters only. -/
theorem natToStr_all_digits (n : Nat) :
    (natToStr n).data.all (fun c => c.isDigit) = true := by
  simp only [natToStr]
  rw [List.all_eq_true]
  intro c hc
  rw [List.mem_map] at hc
  obtain ⟨d, hd, rfl⟩ := hc
  rw [List.mem_reverse] at hd
  exact digitChar_isDigit d (natDigitsRev_lt n d hd)

/-- The decimal string of `n` is non-empty. -/
theorem natToStr_ne_nil (n : Nat) : (natToStr n).data ≠ [] := by
  simp only [natToStr]
  intro h
  rw [List.map_eq_nil_iff, List.reverse_eq_nil_iff] at h
  revert h
  unfold natDigitsRev
  split <;> simp

/-- The decimal string of `n` contains no separator. -/
theorem natToStr_no_dot (n : Nat) : '.' ∉ (natToStr n).data := by
  simp only [natToStr]
  intro h
  rw [List.mem_map] at h
  obtain ⟨d, hd, hdot⟩ := h
  rw [List.mem_reverse] at hd
  exact digitChar_ne_dot d (natDigitsRev_lt n d hd) hdot

/-- JS `Number` recovers `n` from its decimal string. -/
theorem jsToNumC_natToStr (n : Nat) : jsToNumC (natToStr n).data = some n := by
  rw [jsToNumC, if_pos (natToStr_all_digits n)]
  simp only [natToStr]
  rw [foldl_digitChar _ (fun d hd => natDigitsRev_lt n d (List.mem_reverse.mp hd)) 0,
    List.foldl_reverse]
  congr 1
  exact foldr_natDigitsRev n

/-! ## `split('.')` structure lemmas -/

/-- `splitCh` never returns the empty list of parts. -/
theorem splitCh_ne_nil (l : List Char) : splitCh l ≠ [] := by
  cases l with
  | nil => simp [splitCh]
  | cons c cs =>
    rw [splitCh]
    split
    · simp
    · split <;> simp

/-- Splitting a dot-free prefix followed by a dot peels off the prefix. -/
theorem splitCh_append_dot (a r : List Char) (ha : '.' ∉ a) :
    splitCh (a ++ '.' :: r) = a :: splitCh r := by
  induction a with
  | nil => simp [splitCh]
  | cons c cs ih =>
    have hc : ¬(c = '.') := fun h => ha (by simp [h])
    have hcs : '.' ∉ cs := fun h => ha (List.mem_cons_of_mem _ h)
    rw [List.cons_append, splitCh, if_neg hc, ih hcs]

/-- Splitting a dot-free string yields that single part. -/
theorem splitCh_no_dot (l : List Char) (h : '.' ∉ l) : splitCh l = [l] := by
  induction l with
  | nil => rfl
  | cons c cs ih =>
    have hc : ¬(c = '.') := fun hh => h (by simp [hh])
    have hcs : '.' ∉ cs := fun hh => h (List.mem_cons_of_mem _ hh)
    rw [splitCh, if_neg hc, ih hcs]

/-- `joinDots` reconstructs the split string, and no part contains a dot. -/
theorem splitCh_join_no_dot (l : List Char) :
    joinDots (splitCh l) = l ∧ ∀ p ∈ splitCh l, '.' ∉ p := by
  induction l with
  | nil => exact ⟨rfl, by simp [splitCh]⟩
  | cons c cs ih =>
    obtain ⟨hjoin, hparts⟩ := ih
    rw [splitCh]
    by_cases hc : c = '.'
    · rw [if_pos hc]
      refine ⟨?_, ?_⟩
      · cases hsp : splitCh cs with
        | nil => exact absurd hsp (splitCh_ne_nil cs)
        | cons x xs =>
          rw [hsp] at hjoin
          have hdef : joinDots ([] :: x :: xs) = [] ++ '.' :: joinDots (x :: xs) := rfl
          rw [hdef, hjoin, hc]
          rfl
      · intro p hp
        rcases List.mem_cons.mp hp with h | h
        · rw [h]; simp
        · exact hparts p h
    · rw [if_neg hc]
      cases hsp : splitCh cs with
      | nil => exact absurd hsp (splitCh_ne_nil cs)
      | cons x xs =>
        rw [hsp] at hjoin hparts
        refine ⟨?_, ?_⟩
        · cases xs with
          | nil =>
            have hdef : joinDots [c :: x] = c :: x := rfl
            have hdef2 : joinDots [x] = x := rfl
            rw [hdef2] at hjoin
            rw [hdef, hjoin]
          | cons y ys =>
            have hdef : joinDots ((c :: x) :: y :: ys) =
              (c :: x) ++ '.' :: joinDots (y :: ys) := rfl
            have hdef2 : joinDots (x :: y :: ys) = x ++ '.' :: joinDots (y :: ys) := rfl
            rw [hdef2] at hjoin
            rw [hdef, List.cons_append, hjoin]
        · intro p hp
          rcases List.mem_cons.mp hp with h | h
          · rw [h]
            intro hmem
            rcases List.mem_cons.mp hmem with h' | h'
            · exact hc h'.symm
            · exact hparts x (List.mem_cons_self _ _) h'
          · exact hparts p (List.mem_cons_of_mem _ h)

/-- String concatenation concatenates the character lists. -/
theorem string_data_append (s t : String) : (s ++ t).data = s.data ++ t.data := rfl

/-- The characters of `` `${a}.${b}.${c}` ``. -/
theorem mkVersion_data (a b c : Nat) :
    (mkVersion a b c).data =
      (natToStr a).data ++ '.' :: ((natToStr b).data ++ '.' :: (natToStr c).data) := by
  simp only [mkVersion, string_data_append, List.append_assoc]
  rfl

/-- Splitting `` `${a}.${b}.${c}` `` on dots recovers the three components. -/
theorem splitCh_mkVersion (a b c : Nat) :
    splitCh (mkVersion a b c).data =
      [(natToStr a).data, (natToStr b).data, (natToStr c).data] := by
  rw [mkVersion_data, splitCh_append_dot _ _ (natToStr_no_dot a),
    splitCh_append_dot _ _ (natToStr_no_dot b),
    splitCh_no_dot _ (natToStr_no_dot c)]

/-- `parseVersion` recovers the three numeric components of a well-formed
version string. -/
theorem parseVersion_mkVersion (a b c : Nat) :
    parseVersion (mkVersion a b c) = (some a, some b, some c) := by
  simp only [parseVersion, jsParts, splitCh_mkVersion, List.map_cons, List.map_nil,
    jsToNumC_natToStr]
  rfl

/-- The decimal string of `0`. -/
theorem natToStr_zero : natToStr 0 = "0" := by
  rw [natToStr]
  unfold natDigitsRev
  simp
  rfl

/-- `calculateNewVersion` on a well-formed version: `patch` increments the
third component. -/
theorem calculateNewVersion_patch (a b c : Nat) :
    calculateNewVersion (mkVersion a b c) VersionBumpType.patch =
      mkVersion a b (c + 1) := by
  simp only [calculateNewVersion, parseVersion_mkVersion]
  rfl

/-- `calculateNewVersion` on a well-formed version: `minor` increments the
second component and zeroes the third. -/
theorem calculateNewVersion_minor (a b c : Nat) :
    calculateNewVersion (mkVersion a b c) VersionBumpType.minor =
      mkVersion a (b + 1) 0 := by
  simp only [calculateNewVersion, parseVersion_mkVersion]
  apply String.ext
  simp only [jsNumStr, jsAddNum, Option.map, mkVersion, natToStr_zero,
    string_data_append, List.append_assoc]
  rfl

/-- `calculateNewVersion` on a well-formed version: `major` increments the
first component and zeroes the others. -/
theorem calculateNewVersion_major (a b c : Nat) :
    calculateNewVersion (mkVersion a b c) VersionBumpType.major =
      mkVersion (a + 1) 0 0 := by
  simp only [calculateNewVersion, parseVersion_mkVersion]
  apply String.ext
  simp only [jsNumStr, jsAddNum, Option.map, mkVersion, natToStr_zero,
    string_data_append, List.append_assoc]
  rfl

/-- **C7.** For every manifest state whose primary manifest holds version
`(M, m, p)`: `bump('patch')` yields `(M, m, p+1)` and two successive patch
bumps yield `(M, m, p+2)`; `bump('minor')` yields `(M, m+1, 0)`;
`bump('major')` yields `(M+1, 0, 0)` resetting minor and patch regardless of
their prior values; and `bump('none')` returns the current version unchanged
for every state, performing no manifest write. -/
theorem c7_bump_rules (M m p : Nat) (s : VMState) (aj : ExpoAppJson)
    (hread : s.appJson = some aj) (hver : aj.expo.version = mkVersion M m p) :
    (bump s VersionBumpType.patch).1 =
      { oldVersion := mkVersion M m p, newVersion := mkVersion M m (p + 1) } ∧
    (bump (bump s VersionBumpType.patch).2 VersionBumpType.patch).1.newVersion =
      mkVersion M m (p + 2) ∧
    (bump s VersionBumpType.minor).1 =
      { oldVersion := mkVersion M m p, newVersion := mkVersion M (m + 1) 0 } ∧
    (bump s VersionBumpType.major).1 =
      { oldVersion := mkVersion M m p, newVersion := mkVersion (M + 1) 0 0 } ∧
    (∀ s0 : VMState, bump s0 VersionBumpType.none =
      ({ oldVersion := getCurrentVersion s0, newVersion := getCurrentVersion s0 }, s0)) := by
  have hcur : getCurrentVersion s = mkVersion M m p := by
    rw [getCurrentVersion, hread]
    simp [hver]
  refine ⟨?_, ?_, ?_, ?_, fun s0 => rfl⟩
  · show ({ oldVersion := getCurrentVersion s,
            newVersion := calculateNewVersion (getCurrentVersion s)
              VersionBumpType.patch } : VersionBumpResult) =
      { oldVersion := mkVersion M m p, newVersion := mkVersion M m (p + 1) }
    rw [hcur, calculateNewVersion_patch]
  · have hstate : (bump s VersionBumpType.patch).2.appJson =
        some { expo := { aj.expo with version := mkVersion M m (p + 1) } } := by
      show (writeBothManifests s (calculateNewVersion (getCurrentVersion s)
        VersionBumpType.patch)).appJson =
        some { expo := { aj.expo with version := mkVersion M m (p + 1) } }
      rw [hcur, calculateNewVersion_patch, writeBothManifests, hread]
      rfl
    have hcur2 : getCurrentVersion (bump s VersionBumpType.patch).2 =
        mkVersion M m (p + 1) := by
      rw [getCurrentVersion, hstate]
      rfl
    show calculateNewVersion (getCurrentVersion (bump s VersionBumpType.patch).2)
      VersionBumpType.patch = mkVersion M m (p + 2)
    rw [hcur2, calculateNewVersion_patch]
  · show ({ oldVersion := getCurrentVersion s,
            newVersion := calculateNewVersion (getCurrentVersion s)
              VersionBumpType.minor } : VersionBumpResult) =
      { oldVersion := mkVersion M m p, newVersion := mkVersion M (m + 1) 0 }
    rw [hcur, calculateNewVersion_minor]
  · show ({ oldVersion := getCurrentVersion s,
            newVersion := calculateNewVersion (getCurrentVersion s)
              VersionBumpType.major } : VersionBumpResult) =
      { oldVersion := mkVersion M m p, newVersion := mkVersion (M + 1) 0 0 }
    rw [hcur, calculateNewVersion_major]

/-- **C7 (witness).** The bump rules at a concrete manifest state holding
version `1.2.3`. -/
theorem c7_witness :
    ((⟨some ⟨⟨mkVersion 1 2 3, none⟩⟩, none⟩ : VMState).appJson =
        some ⟨⟨mkVersion 1 2 3, none⟩⟩ ∧
      (⟨mkVersion 1 2 3, none⟩ : ExpoConfig).version = mkVersion 1 2 3) ∧
    ((bump (⟨some ⟨⟨mkVersion 1 2 3, none⟩⟩, none⟩ : VMState) VersionBumpType.patch).1 =
      { oldVersion := mkVersion 1 2 3, newVersion := mkVersion 1 2 4 } ∧
    (bump (bump (⟨some ⟨⟨mkVersion 1 2 3, none⟩⟩, none⟩ : VMState)
        VersionBumpType.patch).2 VersionBumpType.patch).1.newVersion =
      mkVersion 1 2 5 ∧
    (bump (⟨some ⟨⟨mkVersion 1 2 3, none⟩⟩, none⟩ : VMState) VersionBumpType.minor).1 =
      { oldVersion := mkVersion 1 2 3, newVersion := mkVersion 1 3 0 } ∧
    (bump (⟨some ⟨⟨mkVersion 1 2 3, none⟩⟩, none⟩ : VMState) VersionBumpType.major).1 =
      { oldVersion := mkVersion 1 2 3, newVersion := mkVersion 2 0 0 } ∧
    (∀ s0 : VMState, bump s0 VersionBumpType.none =
      ({ oldVersion := getCurrentVersion s0, newVersion := getCurrentVersion s0 }, s0))) :=
  ⟨⟨rfl, rfl⟩, c7_bump_rules 1 2 3 _ _ rfl rfl⟩

/-! ## `setVersion` validation (C8) -/

/-- A list of digit characters contains no dot. -/
theorem all_digits_no_dot (l : List Char)
    (hl : l.all (fun ch => ch.isDigit) = true) : '.' ∉ l := by
  intro hmem
  have := List.all_eq_true.mp hl '.' hmem
  simp at this

/-- The regex `/^\d+\.\d+\.\d+$/` accepts exactly the strings of the spec's
three-digit-run shape. -/
theorem validVersionFormat_iff (v : String) :
    validVersionFormat v = true ↔ SpecThreePartVersion v := by
  have hne : ∀ l : List Char, l ≠ [] → l.isEmpty = false := by
    intro l hl
    cases l
    · exact absurd rfl hl
    · rfl
  constructor
  · intro hv
    obtain ⟨hjoin, _⟩ := splitCh_join_no_dot v.data
    rcases hsp : splitCh v.data with _ | ⟨a, _ | ⟨b, _ | ⟨c, _ | d⟩⟩⟩ <;>
      rw [validVersionFormat, hsp] at hv
    · exact Bool.noConfusion hv
    · exact Bool.noConfusion hv
    · exact Bool.noConfusion hv
    · rw [hsp] at hjoin
      have hdata : v.data = a ++ '.' :: (b ++ '.' :: c) := by
        rw [← hjoin]
        rfl
      simp only [isDigitRun, Bool.and_eq_true, Bool.not_eq_true'] at hv
      obtain ⟨⟨⟨ha1, ha2⟩, hb1, hb2⟩, hc1, hc2⟩ := hv
      have hne' : ∀ l : List Char, l.isEmpty = false → l ≠ [] := by
        intro l hl hnil
        rw [hnil] at hl
        exact Bool.noConfusion hl
      exact ⟨a, b, c, hdata, hne' a ha1, ha2, hne' b hb1, hb2, hne' c hc1, hc2⟩
    · exact Bool.noConfusion hv
  · rintro ⟨a, b, c, hdata, ha1, ha2, hb1, hb2, hc1, hc2⟩
    rw [validVersionFormat, hdata,
      splitCh_append_dot _ _ (all_digits_no_dot a ha2),
      splitCh_append_dot _ _ (all_digits_no_dot b hb2),
      splitCh_no_dot _ (all_digits_no_dot c hc2)]
    simp [isDigitRun, ha2, hb2, hc2, hne a ha1, hne b hb1, hne c hc1]

/-- **C8.** `setVersion` fails with the invalid-format error for every input
that is not exactly three dot-separated non-negative integers (extra or
missing components, non-numeric components, leading or trailing garbage) and
succeeds — writing the version to both readable manifests — for every input
of that exact shape; in particular `"1.0"`, `"1.0.0.0"` and `"abc"` fail
while `"1.0.0"` succeeds.  Every other operation of the embedded core is a
total function, so this is the only one that raises to the caller. -/
theorem c8_set_version_validation (s : VMState) (v : String) :
    (setVersion s v = Except.ok (v, writeBothManifests s v) ↔
      SpecThreePartVersion v) ∧
    (setVersion s v = Except.error
        ("Invalid version format: " ++ v ++ ". Expected format: x.y.z") ↔
      ¬ SpecThreePartVersion v) ∧
    exceptOk (setVersion s "1.0") = false ∧
    exceptOk (setVersion s "1.0.0.0") = false ∧
    exceptOk (setVersion s "abc") = false ∧
    exceptOk (setVersion s "1.0.0") = true := by
  have hiff := validVersionFormat_iff v
  refine ⟨?_, ?_, rfl, rfl, rfl, rfl⟩
  · cases hv : validVersionFormat v with
    | true => simp [setVersion, hv, hiff.mp hv]
    | false =>
      have hs : ¬ SpecThreePartVersion v := fun hsp => by
        rw [hiff.mpr hsp] at hv
        cases hv
      simp [setVersion, hv, hs]
  · cases hv : validVersionFormat v with
    | true => simp [setVersion, hv, hiff.mp hv]
    | false =>
      have hs : ¬ SpecThreePartVersion v := fun hsp => by
        rw [hiff.mpr hsp] at hv
        cases hv
      simp [setVersion, hv, hs]

/-! ## Stable sort lemmas (C6) -/

/-- Inserting an element permutes consing it in front. -/
theorem sortInsert_perm {α : Type} (le : α → α → Bool) (x : α) (l : List α) :
    List.Perm (sortInsert le x l) (x :: l) := by
  induction l with
  | nil => exact List.Perm.refl _
  | cons y ys ih =>
    rw [sortInsert]
    by_cases hxy : le x y = true
    · rw [if_pos hxy]
    · rw [if_neg hxy]
      exact (ih.cons y).trans (List.Perm.swap x y ys)

/-- Members of an insertion are the inserted element or old members. -/
theorem mem_sortInsert {α : Type} (le : α → α → Bool) (x z : α) (l : List α)
    (hz : z ∈ sortInsert le x l) : z = x ∨ z ∈ l := by
  have := (sortInsert_perm le x l).mem_iff.mp hz
  rcases List.mem_cons.mp this with h | h
  · exact Or.inl h
  · exact Or.inr h

/-- The stable sort permutes its input. -/
theorem jsStableSort_perm {α : Type} (le : α → α → Bool) (l : List α) :
    List.Perm (jsStableSort le l) l := by
  induction l with
  | nil => exact List.Perm.refl _
  | cons x xs ih =>
    rw [jsStableSort]
    exact (sortInsert_perm le x (jsStableSort le xs)).trans (ih.cons x)

/-- Insertion preserves sortedness, given totality and transitivity of the
comparator on a predicate `P` covering the inserted element and the list. -/
theorem pairwise_sortInsert {α : Type} (le : α → α → Bool) (P : α → Prop)
    (htot : ∀ a b, P a → P b → le a b = true ∨ le b a = true)
    (htrans : ∀ a b c, P a → P b → P c → le a b = true → le b c = true →
      le a c = true)
    (x : α) (l : List α) (hx : P x) (hl : ∀ y ∈ l, P y)
    (hs : l.Pairwise (fun a b => le a b = true)) :
    (sortInsert le x l).Pairwise (fun a b => le a b = true) := by
  induction l with
  | nil => simp [sortInsert]
  | cons y ys ih =>
    rw [List.pairwise_cons] at hs
    obtain ⟨hy, hys⟩ := hs
    have hPy : P y := hl y (List.mem_cons_self _ _)
    have hPys : ∀ z ∈ ys, P z := fun z hz => hl z (List.mem_cons_of_mem _ hz)
    rw [sortInsert]
    by_cases hxy : le x y = true
    · rw [if_pos hxy]
      refine List.Pairwise.cons ?_ (List.Pairwise.cons hy hys)
      intro z hz
      rcases List.mem_cons.mp hz with rfl | hz'
      · exact hxy
      · exact htrans x y z hx hPy (hPys z hz') hxy (hy z hz')
    · rw [if_neg hxy]
      refine List.Pairwise.cons ?_ (ih hPys hys)
      intro z hz
      rcases mem_sortInsert le x z ys hz with heq | hz'
      · rcases htot x y hx hPy with h | h
        · exact absurd h hxy
        · rw [heq]
          exact h
      · exact hy z hz'

/-- The stable sort sorts, given totality and transitivity of the comparator
on a predicate `P` covering the list. -/
theorem pairwise_jsStableSort {α : Type} (le : α → α → Bool) (P : α → Prop)
    (htot : ∀ a b, P a → P b → le a b = true ∨ le b a = true)
    (htrans : ∀ a b c, P a → P b → P c → le a b = true → le b c = true →
      le a c = true)
    (l : List α) (hl : ∀ y ∈ l, P y) :
    (jsStableSort le l).Pairwise (fun a b => le a b = true) := by
  induction l with
  | nil => simp [jsStableSort]
  | cons x xs ih =>
    rw [jsStableSort]
    refine pairwise_sortInsert le P htot htrans x (jsStableSort le xs)
      (hl x (List.mem_cons_self _ _)) ?_ (ih fun y hy => hl y (List.mem_cons_of_mem _ hy))
    intro y hy
    exact hl y (List.mem_cons_of_mem _ ((jsStableSort_perm le xs).mem_iff.mp hy))

/-! ## The tracker comparator on numeric keys (C6) -/

/-- On a numeric version key, every parsed component is a number. -/
theorem jsParts_all_some (s : String) (hs : NumericKey s) :
    ∀ x ∈ jsParts s, x.isSome = true := by
  intro x hx
  rw [jsParts, List.mem_map] at hx
  obtain ⟨part, hpart, rfl⟩ := hx
  rw [jsToNumC, if_pos (hs part hpart)]
  rfl

/-- `arr[i] ?? 0` over an all-number array is always a number. -/
theorem partAt_isSome (l : List (Option Nat)) (hl : ∀ x ∈ l, x.isSome = true) :
    ∀ i, partAt l i = some ((partAt l i).getD 0) := by
  induction l with
  | nil => intro i; cases i <;> rfl
  | cons x xs ih =>
    intro i
    cases i with
    | zero =>
      have := hl x (List.mem_cons_self _ _)
      cases x with
      | none => exact Bool.noConfusion this
      | some n => rfl
    | succ j => exact ih (fun y hy => hl y (List.mem_cons_of_mem _ hy)) j

/-- On numeric keys the tracker comparator is the numeric triple
comparison. -/
theorem trackerCompare_eq_cmp3 (a b : String) (ha : NumericKey a)
    (hb : NumericKey b) :
    trackerCompare a b = cmp3 (versionKey3 a) (versionKey3 b) := by
  have ha' := partAt_isSome (jsParts a) (jsParts_all_some a ha)
  have hb' := partAt_isSome (jsParts b) (jsParts_all_some b hb)
  simp only [trackerCompare, cmp3, versionKey3]
  rw [ha' 0, ha' 1, ha' 2, hb' 0, hb' 1, hb' 2]
  simp only [jsNeqNum, jsSubNum, bne_iff_ne, ne_eq, decide_not]
  by_cases h0 : (partAt (jsParts a) 0).getD 0 = (partAt (jsParts b) 0).getD 0 <;>
    by_cases h1 : (partAt (jsParts a) 1).getD 0 = (partAt (jsParts b) 1).getD 0 <;>
      by_cases h2 : (partAt (jsParts a) 2).getD 0 = (partAt (jsParts b) 2).getD 0 <;>
        simp [h0, h1, h2]

/-- The comparator order on triples is the spec's descending lexicographic
order. -/
theorem cmp3_le_iff (x y : Nat × Nat × Nat) : cmp3 x y ≤ 0 ↔ lexGe3 x y := by
  rcases x with ⟨x0, x1, x2⟩
  rcases y with ⟨y0, y1, y2⟩
  simp only [cmp3, lexGe3]
  split_ifs <;> simp_all <;> omega

/-- The tracker's sort relation is total on numeric keys. -/
theorem trackerLe_total (a b : String) (ha : NumericKey a) (hb : NumericKey b) :
    decide (trackerCompare a b ≤ 0) = true ∨ decide (trackerCompare b a ≤ 0) = true := by
  rw [decide_eq_true_eq, decide_eq_true_eq, trackerCompare_eq_cmp3 a b ha hb,
    trackerCompare_eq_cmp3 b a hb ha, cmp3_le_iff, cmp3_le_iff]
  simp only [lexGe3]
  omega

/-- The tracker's sort relation is transitive on numeric keys. -/
theorem trackerLe_trans (a b c : String) (ha : NumericKey a) (hb : NumericKey b)
    (hc : NumericKey c) (hab : decide (trackerCompare a b ≤ 0) = true)
    (hbc : decide (trackerCompare b c ≤ 0) = true) :
    decide (trackerCompare a c ≤ 0) = true := by
  rw [decide_eq_true_eq, trackerCompare_eq_cmp3 a b ha hb, cmp3_le_iff] at hab
  rw [decide_eq_true_eq, trackerCompare_eq_cmp3 b c hb hc, cmp3_le_iff] at hbc
  rw [decide_eq_true_eq, trackerCompare_eq_cmp3 a c ha hc, cmp3_le_iff]
  revert hab hbc
  simp only [lexGe3]
  omega

/-- **C6.** For every ledger state whose tracked version keys are numeric
version strings, `getAllVersions` returns exactly the tracked keys
(a permutation) sorted descending by component-wise numeric comparison of
`(major, minor, patch)` — ties broken by the earlier component, missing
components treated as `0` — not by lexicographic string order; in
particular recording `"1.0.0"`, `"2.0.0"`, `"1.5.0"` in any insertion order
yields `["2.0.0", "1.5.0", "1.0.0"]`, and `"10.0.0"` sorts before
`"2.0.0"`. -/
theorem c6_versions_sorted_descending (h : DeploymentHistory)
    (hkeys : ∀ v ∈ h.versions.map Prod.fst, NumericKey v) :
    (getAllVersions h).Pairwise specVersionDesc ∧
    List.Perm (getAllVersions h) (h.versions.map Prod.fst) ∧
    (∀ l ∈ ([["1.0.0", "2.0.0", "1.5.0"], ["1.0.0", "1.5.0", "2.0.0"],
        ["2.0.0", "1.0.0", "1.5.0"], ["2.0.0", "1.5.0", "1.0.0"],
        ["1.5.0", "1.0.0", "2.0.0"], ["1.5.0", "2.0.0", "1.0.0"]] :
          List (List String)),
      getAllVersions (sampleVersions l) = ["2.0.0", "1.5.0", "1.0.0"]) ∧
    getAllVersions (sampleVersions ["2.0.0", "10.0.0"]) = ["10.0.0", "2.0.0"] := by
  have hperm : List.Perm (getAllVersions h) (h.versions.map Prod.fst) :=
    jsStableSort_perm _ _
  refine ⟨?_, hperm, by decide, by decide⟩
  have hpw := pairwise_jsStableSort (fun a b => decide (trackerCompare a b ≤ 0))
    NumericKey trackerLe_total trackerLe_trans (h.versions.map Prod.fst) hkeys
  have hmem : ∀ v ∈ getAllVersions h, NumericKey v := fun v hv =>
    hkeys v (hperm.mem_iff.mp hv)
  refine List.Pairwise.imp_of_mem ?_ hpw
  intro a b hma hmb hab
  rw [decide_eq_true_eq,
    trackerCompare_eq_cmp3 a b (hmem a hma) (hmem b hmb), cmp3_le_iff] at hab
  exact hab

/-- **C6 (witness).** The sorted-descending property at a concrete ledger
state holding the versions `1.0.0`, `2.0.0`, `10.0.0`, `1.5.0`. -/
theorem c6_witness :
    (∀ v ∈ (sampleVersions ["1.0.0", "2.0.0", "10.0.0", "1.5.0"]).versions.map
      Prod.fst, NumericKey v) ∧
    ((getAllVersions
        (sampleVersions ["1.0.0", "2.0.0", "10.0.0", "1.5.0"])).Pairwise
          specVersionDesc ∧
      List.Perm
        (getAllVersions (sampleVersions ["1.0.0", "2.0.0", "10.0.0", "1.5.0"]))
        ((sampleVersions ["1.0.0", "2.0.0", "10.0.0", "1.5.0"]).versions.map
          Prod.fst) ∧
      (∀ l ∈ ([["1.0.0", "2.0.0", "1.5.0"], ["1.0.0", "1.5.0", "2.0.0"],
          ["2.0.0", "1.0.0", "1.5.0"], ["2.0.0", "1.5.0", "1.0.0"],
          ["1.5.0", "1.0.0", "2.0.0"], ["1.5.0", "2.0.0", "1.0.0"]] :
            List (List String)),
        getAllVersions (sampleVersions l) = ["2.0.0", "1.5.0", "1.0.0"]) ∧
      getAllVersions (sampleVersions ["2.0.0", "10.0.0"]) = ["10.0.0", "2.0.0"]) :=
  ⟨by decide, c6_versions_sorted_descending _ (by decide)⟩

end Shipkit
